import Mathlib

/-!
Compilite: the compile handler of `compiler_web/static/js/main.js`

A shallow embedding of the click handler of the compile button and of the
functions it calls (`displayAST`, `updateOutput`, `showError`), together with
the part of the ECMAScript semantics those functions rely on: property reads,
truthiness, `ToString`, `Array.prototype.join`, `Array.isArray`.

The page is a record of the regions the handler writes.  A statement that may
throw returns the page as it stands at that moment together with the thrown
error, so what was written before a throw stays written.  `console.log` and
`console.error` write to no region and are left out.  Assigning `innerHTML` is
modelled as storing the assigned markup; the HTML parser of the browser is not
part of the program.  The page is taken to hold every element the handler
looks up, and `bootstrap` to be loaded, as in the page `main.js` is served
with.
-/

namespace Compilite

/-! ## Values -/

/-- A JavaScript value as `response.json()` can produce it, plus `undefined`,
the result of reading a property that is not there.  A Number is represented
by the string `Number::toString` yields for it (`"15"`, `"0.5"`, `"1e+21"`):
the program only converts numbers to strings and tests their truthiness, and a
number is falsy exactly when that string is `"0"` (plus or minus zero) or
`"NaN"`.  `obj` lists the own properties of an object, one entry per key. -/
inductive JSVal where
  | undefined
  | null
  | bool (b : Bool)
  | num (repr : String)
  | str (s : String)
  | arr (items : List JSVal)
  | obj (props : List (String × JSVal))

/-- The TypeErrors the engine raises in this program. -/
inductive TypeErrorKind where
  /-- Reading property `key` of `undefined` or `null`. -/
  | readOfNullish (base : JSVal) (key : String)
  /-- Calling `base.key(...)` where `base.key` is not a function. -/
  | notCallable (base : JSVal) (key : String)
  /-- Conversion `ToString` of an object that has no callable `toString` or `valueOf`
  yielding a primitive. -/
  | notPrimitive (v : JSVal)

/-- A thrown error object.  `typeError` is raised by the engine while the
handler runs; its message text is chosen by the engine.  `external` is the
error object a rejected `fetch` or `response.json()` promise carries, with its
`message` property. -/
inductive JSError where
  | typeError (kind : TypeErrorKind)
  | external (message : String)

/-- The `message` property of an error object; `engine` gives the message text
of engine TypeErrors. -/
def JSError.message (engine : TypeErrorKind → String) : JSError → String
  | .typeError k => engine k
  | .external m => m

/-- The test `v == null`: true of `undefined` and `null` only. -/
def isNullish : JSVal → Bool
  | .undefined => true
  | .null => true
  | _ => false

/-- The conversion `ToBoolean`. -/
def truthy : JSVal → Bool
  | .undefined => false
  | .null => false
  | .bool b => b
  | .num r => !(r == "0" || r == "NaN")
  | .str s => !(s == "")
  | .arr _ => true
  | .obj _ => true

/-- The test `Array.isArray`. -/
def isArray : JSVal → Bool
  | .arr _ => true
  | _ => false

/-- The expression `a || b`. -/
def jsOr (a b : JSVal) : JSVal := if truthy a then a else b

/-- Own-property test on a property list. -/
def hasKey (key : String) : List (String × JSVal) → Bool
  | [] => false
  | (k, _) :: ps => k == key || hasKey key ps

/-- Own-property lookup on a property list; `undefined` when absent. -/
def lookupKey (key : String) : List (String × JSVal) → JSVal
  | [] => .undefined
  | (k, v) :: ps => if k == key then v else lookupKey key ps

/-- The read `base.key` for the keys the handler reads (`success`, `ast`, `tokens`,
`type`, `value`, `ir_code`, `target_code`, `output`, `error`), none of which
is defined on a built-in prototype: the own property of an object, `undefined`
on any other non-nullish value, a TypeError on `undefined` and `null`. -/
def getProp (base : JSVal) (key : String) : Except JSError JSVal :=
  match base with
  | .undefined => .error (.typeError (.readOfNullish base key))
  | .null => .error (.typeError (.readOfNullish base key))
  | .obj ps => .ok (lookupKey key ps)
  | _ => .ok .undefined

/-- Concatenation of strings with a separator between consecutive ones. -/
def joinStrings (sep : String) : List String → String
  | [] => ""
  | [s] => s
  | s :: t :: rest => s ++ sep ++ joinStrings sep (t :: rest)

mutual
/-- The conversion `ToString`.  An array converts through `join(",")`.  An object from JSON
has no callable own `toString`: when it has an own `toString` property the
conversion finds no method that yields a primitive and throws, otherwise
`Object.prototype.toString` gives `"[object Object]"`. -/
def toStr : JSVal → Except JSError String
  | .undefined => .ok "undefined"
  | .null => .ok "null"
  | .bool b => .ok (if b then "true" else "false")
  | .num r => .ok r
  | .str s => .ok s
  | .arr xs =>
    match itemStrings xs with
    | .ok ss => .ok (joinStrings "," ss)
    | .error e => .error e
  | .obj ps =>
    if hasKey "toString" ps then .error (.typeError (.notPrimitive (.obj ps)))
    else .ok "[object Object]"
/-- The strings `join` concatenates: the empty string for `undefined` and
`null`, `ToString` for every other element, left to right, stopping at the
first conversion that throws. -/
def itemStrings : List JSVal → Except JSError (List String)
  | [] => .ok []
  | x :: xs =>
    match (if isNullish x then .ok "" else toStr x) with
    | .error e => .error e
    | .ok s =>
      match itemStrings xs with
      | .ok ss => .ok (s :: ss)
      | .error e => .error e
end

/-- The method `Array.prototype.join(sep)` on the elements `xs`. -/
def join (sep : String) (xs : List JSVal) : Except JSError String :=
  match itemStrings xs with
  | .ok ss => .ok (joinStrings sep ss)
  | .error e => .error e

/-- The string an assignment to `textContent` stores: the empty string for
`undefined` and `null`, `ToString` for every other value. -/
def textOf (v : JSVal) : Except JSError String :=
  if isNullish v then .ok "" else toStr v

/-! ## The page -/

/-- The regions of the page the handler writes, and a record of the calls of
`showError`. -/
structure Page where
  /-- The `textContent` of `#codeOutput`. -/
  codeOutput : String
  /-- The `style.display` of `#codeOutput`. -/
  codeOutputDisplay : String
  /-- Whether `#codeOutput` has been scrolled into view. -/
  codeOutputInView : Bool
  /-- The `style.height` of `#astVisualization`. -/
  astHeight : String
  /-- The `innerHTML` of `#astVisualization`. -/
  astHtml : String
  /-- The `innerHTML` of `#tokensTable tbody`. -/
  tokensHtml : String
  /-- The `textContent` of `#irCode`. -/
  irCode : String
  /-- The `textContent` of `#targetCode`. -/
  targetCode : String
  /-- The `href` of the tab that is shown. -/
  activeTab : String
  /-- The `textContent` of `#errorMessage`. -/
  errorMessage : String
  /-- Whether the error modal has been shown. -/
  errorModalShown : Bool
  /-- The arguments of the calls of `showError`, oldest first. -/
  showErrorCalls : List JSVal

/-- The page after a statement ran, and the error it threw if it threw. -/
structure Step where
  page : Page
  thrown : Option JSError

/-- Sequencing: the next statement runs only when nothing was thrown. -/
def Step.andThen (r : Step) (f : Page → Step) : Step :=
  match r.thrown with
  | none => f r.page
  | some _ => r

/-! ## The functions of `main.js` -/

/-- The function `displayAST(astString)`. -/
def displayAST (astString : JSVal) (p : Page) : Step :=
  let p1 := { p with astHeight := "auto" }
  match toStr astString with
  | .ok s => ⟨{ p1 with astHtml := "<pre class=\"ast-tree\">" ++ s ++ "</pre>" }, none⟩
  | .error e => ⟨p1, some e⟩

/-- The two statements that end `updateOutput`: make the output visible and
scroll it into view. -/
def ensureVisible (p : Page) : Page :=
  { p with codeOutputDisplay := "block", codeOutputInView := true }

/-- The function `updateOutput(output)`. -/
def updateOutput (output : JSVal) (p : Page) : Step :=
  match output with
  | .arr xs =>
    if xs.length > 0 then
      let validOutput := xs.filter (fun line => !isNullish line)
      if validOutput.length > 0 then
        match join "\n" validOutput with
        | .ok s => ⟨ensureVisible { p with codeOutput := s }, none⟩
        | .error e => ⟨p, some e⟩
      else ⟨ensureVisible { p with codeOutput := "(No valid output)" }, none⟩
    else ⟨ensureVisible { p with codeOutput := "(No output)" }, none⟩
  | _ => ⟨ensureVisible { p with codeOutput := "(No output)" }, none⟩

/-- The function `showError(message)`: the assignment to `textContent`
converts the message to a string. -/
def showError (message : JSVal) (p : Page) : Step :=
  let p1 := { p with showErrorCalls := p.showErrorCalls ++ [message] }
  match textOf message with
  | .ok s => ⟨{ p1 with errorMessage := s, errorModalShown := true }, none⟩
  | .error e => ⟨p1, some e⟩

/-- The markup of one row of the tokens table, as the template literal of the
handler lays it out. -/
def rowHtml (type value : String) : String :=
  "\n                <tr>\n                    <td>" ++ type ++
  "</td>\n                    <td>" ++ value ++
  "</td>\n                </tr>\n            "

/-- The callback of `data.tokens.map`: the row of one token. -/
def tokenRow (token : JSVal) : Except JSError String :=
  match getProp token "type" with
  | .error e => .error e
  | .ok ty =>
    match toStr ty with
    | .error e => .error e
    | .ok tys =>
      match getProp token "value" with
      | .error e => .error e
      | .ok v =>
        match toStr v with
        | .error e => .error e
        | .ok vs => .ok (rowHtml tys vs)

/-- The call `tokens.map(callback)` on the elements of an array, left to right. -/
def tokenRows : List JSVal → Except JSError (List String)
  | [] => .ok []
  | t :: ts =>
    match tokenRow t with
    | .error e => .error e
    | .ok r =>
      match tokenRows ts with
      | .error e => .error e
      | .ok rs => .ok (r :: rs)

/-- The statement `tokensBody.innerHTML = data.tokens.map(...).join("")`. -/
def updateTokens (data : JSVal) (p : Page) : Step :=
  match getProp data "tokens" with
  | .error e => ⟨p, some e⟩
  | .ok tokens =>
    match tokens with
    | .arr ts =>
      match tokenRows ts with
      | .ok rows => ⟨{ p with tokensHtml := joinStrings "" rows }, none⟩
      | .error e => ⟨p, some e⟩
    | .undefined => ⟨p, some (.typeError (.readOfNullish tokens "map"))⟩
    | .null => ⟨p, some (.typeError (.readOfNullish tokens "map"))⟩
    | _ => ⟨p, some (.typeError (.notCallable tokens "map"))⟩

/-- The text a code view receives from a truthy fragment:
`Array.isArray(v) ? v.join("\n") : v`, the latter converted by the
assignment to `textContent`. -/
def codeText (v : JSVal) : Except JSError String :=
  match v with
  | .arr xs => join "\n" xs
  | _ => textOf v

/-- The statement `if (data.ir_code) { irCode.textContent = ... }`. -/
def updateIR (data : JSVal) (p : Page) : Step :=
  match getProp data "ir_code" with
  | .error e => ⟨p, some e⟩
  | .ok v =>
    if truthy v then
      match codeText v with
      | .ok s => ⟨{ p with irCode := s }, none⟩
      | .error e => ⟨p, some e⟩
    else ⟨p, none⟩

/-- The statement `if (data.target_code) { targetCode.textContent = ... }`. -/
def updateTarget (data : JSVal) (p : Page) : Step :=
  match getProp data "target_code" with
  | .error e => ⟨p, some e⟩
  | .ok v =>
    if truthy v then
      match codeText v with
      | .ok s => ⟨{ p with targetCode := s }, none⟩
      | .error e => ⟨p, some e⟩
    else ⟨p, none⟩

/-- The statements `new bootstrap.Tab(outputTab)` and `tab.show()`. -/
def showOutputTab (p : Page) : Step :=
  ⟨{ p with activeTab := "#outputTab" }, none⟩

/-- Reading a property and passing it to a statement. -/
def withProp (data : JSVal) (key : String) (f : JSVal → Page → Step) (p : Page) : Step :=
  match getProp data key with
  | .error e => ⟨p, some e⟩
  | .ok v => f v p

/-- The statements of the branch `if (data.success) { ... }` that come before
`updateOutput(data.output)`: the AST, the tokens table, the IR view and the
target view. -/
def renderArtifacts (data : JSVal) (p : Page) : Step :=
  (((withProp data "ast" displayAST p).andThen
    (updateTokens data)).andThen
    (updateIR data)).andThen
    (updateTarget data)

/-- The branch `if (data.success) { ... }` of the handler: the success-path
rendering. -/
def renderSuccess (data : JSVal) (p : Page) : Step :=
  ((renderArtifacts data p).andThen
    (withProp data "output" updateOutput)).andThen
    showOutputTab

/-- The `else` branch: `showError(data.error || "Compilation failed")`. -/
def reportFailure (data : JSVal) (p : Page) : Step :=
  withProp data "error" (fun e => showError (jsOr e (.str "Compilation failed"))) p

/-- What awaiting `fetch(...)` and then `response.json()` produced. -/
inductive Transport where
  /-- The promise `fetch` returned was rejected. -/
  | fetchRejected (e : JSError)
  /-- The promise `response.json()` returned was rejected: no JSON body. -/
  | jsonRejected (e : JSError)
  /-- The body parsed as JSON to `data`. -/
  | parsed (data : JSVal)

/-- The `try` block of the handler. -/
def tryBlock (t : Transport) (p : Page) : Step :=
  match t with
  | .fetchRejected e => ⟨p, some e⟩
  | .jsonRejected e => ⟨p, some e⟩
  | .parsed data =>
    match getProp data "success" with
    | .error e => ⟨p, some e⟩
    | .ok s => if truthy s then renderSuccess data p else reportFailure data p

/-- The `catch` block:
`showError(error.message || "An error occurred during compilation")`. -/
def catchBlock (engine : TypeErrorKind → String) (error : JSError) (p : Page) : Step :=
  showError (jsOr (.str (error.message engine))
    (.str "An error occurred during compilation")) p

/-- The statement `codeOutput.textContent = "Compiling..."` that opens the
handler. -/
def showInProgress (p : Page) : Page :=
  { p with codeOutput := "Compiling..." }

/-- The `try ... catch`: the result of the `try` block when it threw nothing,
otherwise the `catch` block run on the page as the throw left it. -/
def tryCatch (engine : TypeErrorKind → String) (r : Step) : Step :=
  match r.thrown with
  | none => r
  | some error => catchBlock engine error r.page

/-- The click handler of the compile button, run to completion on what the
transport produced.  `thrown` of the result is an error that escapes the
handler. -/
def compileHandler (engine : TypeErrorKind → String) (t : Transport) (p : Page) : Step :=
  tryCatch engine (tryBlock t (showInProgress p))

/-! ## Concrete inputs -/

/-- A page with earlier results in every view. -/
def stalePage : Page :=
  { codeOutput := "old output", codeOutputDisplay := "block", codeOutputInView := false,
    astHeight := "400px", astHtml := "<pre class=\"ast-tree\">Old</pre>",
    tokensHtml := rowHtml "ID" "y", irCode := "old ir", targetCode := "old target",
    activeTab := "#tokensTab", errorMessage := "", errorModalShown := false,
    showErrorCalls := [] }

/-- An engine whose TypeErrors all carry the same message. -/
def plainEngine : TypeErrorKind → String := fun _ => "TypeError"

/-- Scenario A of the specification. -/
def scenarioA : JSVal :=
  .obj [("success", .bool true), ("output", .arr [.str "5", .str "15"]),
    ("tokens", .arr [.obj [("type", .str "KEYWORD"), ("value", .str "int")]]),
    ("ast", .str "Program"), ("ir_code", .arr [.str "LOAD x"]),
    ("target_code", .str "MOV x")]

/-- A successful response with AST and tokens and the given `output`. -/
def responseWithOutput (output : JSVal) : JSVal :=
  .obj [("success", .bool true), ("ast", .str "Program"), ("tokens", .arr []),
    ("output", output)]

/-- A successful response with AST and tokens and no `output` field. -/
def responseNoOutput : JSVal :=
  .obj [("success", .bool true), ("ast", .str "Program"), ("tokens", .arr [])]

/-- Scenario C of the specification. -/
def scenarioC : JSVal :=
  .obj [("success", .bool false), ("error", .str "Unexpected token at line 3")]

/-- A failure response whose error is the empty string. -/
def failureEmptyError : JSVal :=
  .obj [("success", .bool false), ("error", .str "")]

/-- A failure response without an error field. -/
def failureNoError : JSVal :=
  .obj [("success", .bool false)]

/-- A successful response that has every fragment but the tokens. -/
def responseNoTokens : JSVal :=
  .obj [("success", .bool true), ("ast", .str "Program"), ("ir_code", .arr [.str "LOAD x"]),
    ("target_code", .str "MOV x"), ("output", .arr [.str "5"])]

/-- A successful response whose tokens hold an entry that is not an object. -/
def responseNullToken : JSVal :=
  .obj [("success", .bool true), ("ast", .str "Program"), ("tokens", .arr [.null]),
    ("ir_code", .arr [.str "LOAD x"]), ("target_code", .str "MOV x"),
    ("output", .arr [.str "5"])]

/-- A successful response whose IR and target fragments are empty strings. -/
def responseEmptyCode : JSVal :=
  .obj [("success", .bool true), ("ast", .str "Program"), ("tokens", .arr []),
    ("ir_code", .str ""), ("target_code", .str ""), ("output", .arr [.str "5"])]

/-! ## Proof devices -/

/-- Proof device: a set of writes to the regions the rendering touches, `none`
for a region that is left alone. -/
structure Patch where
  codeOutput : Option String := none
  codeOutputDisplay : Option String := none
  codeOutputInView : Option Bool := none
  astHeight : Option String := none
  astHtml : Option String := none
  tokensHtml : Option String := none
  irCode : Option String := none
  targetCode : Option String := none
  activeTab : Option String := none

/-- Proof device: the later of two writes to one region. -/
def laterWrite {α : Type} (first second : Option α) : Option α :=
  match second with
  | some x => some x
  | none => first

/-- Proof device: carrying out the writes of a patch. -/
def Patch.apply (w : Patch) (p : Page) : Page :=
  { p with
    codeOutput := w.codeOutput.getD p.codeOutput,
    codeOutputDisplay := w.codeOutputDisplay.getD p.codeOutputDisplay,
    codeOutputInView := w.codeOutputInView.getD p.codeOutputInView,
    astHeight := w.astHeight.getD p.astHeight,
    astHtml := w.astHtml.getD p.astHtml,
    tokensHtml := w.tokensHtml.getD p.tokensHtml,
    irCode := w.irCode.getD p.irCode,
    targetCode := w.targetCode.getD p.targetCode,
    activeTab := w.activeTab.getD p.activeTab }

/-- Proof device: the writes of one patch followed by those of another. -/
def Patch.merge (w1 w2 : Patch) : Patch :=
  { codeOutput := laterWrite w1.codeOutput w2.codeOutput,
    codeOutputDisplay := laterWrite w1.codeOutputDisplay w2.codeOutputDisplay,
    codeOutputInView := laterWrite w1.codeOutputInView w2.codeOutputInView,
    astHeight := laterWrite w1.astHeight w2.astHeight,
    astHtml := laterWrite w1.astHtml w2.astHtml,
    tokensHtml := laterWrite w1.tokensHtml w2.tokensHtml,
    irCode := laterWrite w1.irCode w2.irCode,
    targetCode := laterWrite w1.targetCode w2.targetCode,
    activeTab := laterWrite w1.activeTab w2.activeTab }

/-- Proof device: a statement whose writes and whose thrown error are fixed,
whatever the page it runs on. -/
def PureWrite (f : Page → Step) : Prop :=
  ∃ (w : Patch) (e : Option JSError), ∀ p, f p = ⟨w.apply p, e⟩

/-! ## Lemmas on `join` and `updateOutput` -/

theorem itemStrings_of_toStr {xs : List JSVal} {ss : List String}
    (hnn : ∀ x ∈ xs, isNullish x = false)
    (hss : List.Forall₂ (fun x s => toStr x = .ok s) xs ss) :
    itemStrings xs = .ok ss := by
  induction hss with
  | nil => simp [itemStrings]
  | @cons x s xs ss h _ ih =>
    have hx : isNullish x = false := hnn x (List.mem_cons_self _ _)
    have ih1 := ih (fun y hy => hnn y (List.mem_cons_of_mem _ hy))
    simp [itemStrings, hx, h, ih1]

theorem filter_of_no_nullish {xs : List JSVal} (hnn : ∀ x ∈ xs, isNullish x = false) :
    xs.filter (fun line => !isNullish line) = xs := by
  apply List.filter_eq_self.mpr
  intro x hx
  simp [hnn x hx]

theorem filter_of_all_nullish {xs : List JSVal} (hall : ∀ x ∈ xs, isNullish x = true) :
    xs.filter (fun line => !isNullish line) = [] := by
  apply List.filter_eq_nil_iff.mpr
  intro x hx
  simp [hall x hx]

theorem length_pos_of_ne_nil {xs : List JSVal} (hne : xs ≠ []) : xs.length > 0 :=
  List.length_pos.mpr hne

/-- The result of `updateOutput` on a non-empty array without null or
undefined entries whose entries convert to the strings `ss`. -/
theorem updateOutput_of_lines {xs : List JSVal} {ss : List String} (q : Page)
    (hne : xs ≠ []) (hnn : ∀ x ∈ xs, isNullish x = false)
    (hss : List.Forall₂ (fun x s => toStr x = .ok s) xs ss) :
    updateOutput (.arr xs) q =
      ⟨ensureVisible { q with codeOutput := joinStrings "\n" ss }, none⟩ := by
  have hlen := length_pos_of_ne_nil hne
  simp [updateOutput, hlen, filter_of_no_nullish hnn, join, itemStrings_of_toStr hnn hss]

/-- The result of `updateOutput` on a non-empty array of null and undefined
entries only. -/
theorem updateOutput_of_all_nullish {xs : List JSVal} (q : Page)
    (hne : xs ≠ []) (hall : ∀ x ∈ xs, isNullish x = true) :
    updateOutput (.arr xs) q =
      ⟨ensureVisible { q with codeOutput := "(No valid output)" }, none⟩ := by
  have hlen := length_pos_of_ne_nil hne
  simp [updateOutput, hlen, filter_of_all_nullish hall]

/-- The result of `updateOutput` on a value that is not an array, or on the
empty array. -/
theorem updateOutput_of_no_array {v : JSVal} (q : Page)
    (hv : isArray v = false ∨ v = .arr []) :
    updateOutput v q = ⟨ensureVisible { q with codeOutput := "(No output)" }, none⟩ := by
  rcases hv with hv | hv
  · cases v <;> simp [updateOutput, isArray] at hv ⊢
  · subst hv
    simp [updateOutput]

/-- A property an object does not have reads as `undefined`. -/
theorem lookupKey_of_missing {key : String} {ps : List (String × JSVal)}
    (h : hasKey key ps = false) : lookupKey key ps = .undefined := by
  induction ps with
  | nil => rfl
  | cons kv ps ih =>
    obtain ⟨k, v⟩ := kv
    simp [hasKey] at h
    simp [lookupKey, h.1, ih h.2]

/-! ## Lemmas on the handler -/

/-- On a response with a truthy `success` whose artifact statements complete,
the handler goes on with `updateOutput(data.output)` and the tab switch. -/
theorem compileHandler_of_rendered (engine : TypeErrorKind → String) {data s : JSVal}
    (p : Page) (hs : getProp data "success" = .ok s) (ht : truthy s = true)
    (hrun : (renderArtifacts data (showInProgress p)).thrown = none) :
    compileHandler engine (.parsed data) p =
      tryCatch engine ((withProp data "output" updateOutput
        (renderArtifacts data (showInProgress p)).page).andThen showOutputTab) := by
  simp only [compileHandler, tryBlock, hs, ht, if_true, renderSuccess]
  congr 1
  simp only [Step.andThen, hrun]

/-- On a response with a truthy `success` whose artifact statements complete
and whose `updateOutput` sets the text `text`, the handler ends with that text
in the output view and nothing thrown. -/
theorem compileHandler_output (engine : TypeErrorKind → String) {data s v : JSVal}
    (p : Page) (text : String)
    (hs : getProp data "success" = .ok s) (ht : truthy s = true)
    (hrun : (renderArtifacts data (showInProgress p)).thrown = none)
    (hout : getProp data "output" = .ok v)
    (hupd : ∀ q, updateOutput v q = ⟨ensureVisible { q with codeOutput := text }, none⟩) :
    (compileHandler engine (.parsed data) p).page.codeOutput = text ∧
    (compileHandler engine (.parsed data) p).thrown = none := by
  rw [compileHandler_of_rendered engine p hs ht hrun]
  simp [withProp, hout, hupd, Step.andThen, showOutputTab, ensureVisible, tryCatch]

/-! ## The output view (C1, C2, C3) -/

/-- C1: for every response with success true (or any truthy value, which the
handler treats alike) whose output is a non-empty array without null or
undefined entries, `updateOutput` sets the text of the output view to the
entries joined with a single newline, in order; and when the handler runs
`updateOutput` (the artifact statements before it completed) that is the text
the output view holds when the handler ends.  The list `ss` holds the entries
as strings: the entries themselves when they are strings, their `ToString`
otherwise. -/
theorem output_view_joins_lines (engine : TypeErrorKind → String) (data s : JSVal)
    (xs : List JSVal) (ss : List String) (p : Page)
    (hs : getProp data "success" = .ok s) (ht : truthy s = true)
    (hout : getProp data "output" = .ok (.arr xs))
    (hne : xs ≠ []) (hnn : ∀ x ∈ xs, isNullish x = false)
    (hss : List.Forall₂ (fun x line => toStr x = .ok line) xs ss) :
    updateOutput (.arr xs) p =
      ⟨ensureVisible { p with codeOutput := joinStrings "\n" ss }, none⟩ ∧
    ((renderArtifacts data (showInProgress p)).thrown = none →
      (compileHandler engine (.parsed data) p).page.codeOutput = joinStrings "\n" ss ∧
      (compileHandler engine (.parsed data) p).thrown = none) :=
  ⟨updateOutput_of_lines p hne hnn hss,
    fun hrun => compileHandler_output engine p _ hs ht hrun hout
      (fun q => updateOutput_of_lines q hne hnn hss)⟩

/-- Scenario A: the output `["5","15"]` is shown as `"5\n15"`. -/
theorem output_view_joins_lines_witness :
    getProp scenarioA "output" = .ok (.arr [.str "5", .str "15"]) ∧
    (updateOutput (.arr [.str "5", .str "15"]) stalePage).page.codeOutput = "5\n15" ∧
    (compileHandler plainEngine (.parsed scenarioA) stalePage).page.codeOutput = "5\n15" ∧
    (compileHandler plainEngine (.parsed scenarioA) stalePage).thrown = none :=
  have h := output_view_joins_lines plainEngine scenarioA (.bool true)
    [.str "5", .str "15"] ["5", "15"] stalePage rfl rfl rfl (by simp)
    (by simp [isNullish])
    (List.Forall₂.cons rfl (List.Forall₂.cons rfl List.Forall₂.nil))
  ⟨rfl, congrArg (fun r => r.page.codeOutput) h.1, h.2 rfl⟩

/-- C2 as stated fails on the empty array: `updateOutput` shows
`"(No output)"`, not `"(No valid output)"`. -/
theorem empty_output_shows_no_output :
    getProp (responseWithOutput (.arr [])) "output" = .ok (.arr []) ∧
    (updateOutput (.arr []) stalePage).page.codeOutput = "(No output)" ∧
    (compileHandler plainEngine (.parsed (responseWithOutput (.arr []))) stalePage).page.codeOutput
      = "(No output)" ∧
    (compileHandler plainEngine (.parsed (responseWithOutput (.arr []))) stalePage).page.codeOutput
      ≠ "(No valid output)" :=
  ⟨rfl, rfl, rfl, by decide⟩

/-- C2, amended: for every response with success true whose output is a
non-empty array consisting entirely of null and undefined entries,
`updateOutput` sets the text of the output view to exactly
`"(No valid output)"`; and when the handler runs `updateOutput` that is the
text the output view holds when the handler ends. -/
theorem output_view_no_valid_output (engine : TypeErrorKind → String) (data s : JSVal)
    (xs : List JSVal) (p : Page)
    (hs : getProp data "success" = .ok s) (ht : truthy s = true)
    (hout : getProp data "output" = .ok (.arr xs))
    (hne : xs ≠ []) (hall : ∀ x ∈ xs, isNullish x = true) :
    updateOutput (.arr xs) p =
      ⟨ensureVisible { p with codeOutput := "(No valid output)" }, none⟩ ∧
    ((renderArtifacts data (showInProgress p)).thrown = none →
      (compileHandler engine (.parsed data) p).page.codeOutput = "(No valid output)" ∧
      (compileHandler engine (.parsed data) p).thrown = none) :=
  ⟨updateOutput_of_all_nullish p hne hall,
    fun hrun => compileHandler_output engine p _ hs ht hrun hout
      (fun q => updateOutput_of_all_nullish q hne hall)⟩

/-- The output `[null, null]` is shown as `"(No valid output)"`. -/
theorem output_view_no_valid_output_witness :
    getProp (responseWithOutput (.arr [.null, .null])) "output" = .ok (.arr [.null, .null]) ∧
    (updateOutput (.arr [.null, .null]) stalePage).page.codeOutput = "(No valid output)" ∧
    (compileHandler plainEngine (.parsed (responseWithOutput (.arr [.null, .null])))
      stalePage).page.codeOutput = "(No valid output)" ∧
    (compileHandler plainEngine (.parsed (responseWithOutput (.arr [.null, .null])))
      stalePage).thrown = none :=
  have h := output_view_no_valid_output plainEngine
    (responseWithOutput (.arr [.null, .null])) (.bool true) [.null, .null] stalePage
    rfl rfl rfl (by simp) (by simp [isNullish])
  ⟨rfl, congrArg (fun r => r.page.codeOutput) h.1, h.2 rfl⟩

/-- C3: for every response with success true whose output field is missing, is
not an array, or is the empty array, `updateOutput`, called with what the
field reads as, sets the text of the output view to exactly `"(No output)"`;
and when the handler runs `updateOutput` that is the text the output view
holds when the handler ends. -/
theorem output_view_no_output (engine : TypeErrorKind → String) (data s : JSVal) (p : Page)
    (hs : getProp data "success" = .ok s) (ht : truthy s = true)
    (hout : (∃ ps, data = .obj ps ∧ hasKey "output" ps = false) ∨
      (∃ v, getProp data "output" = .ok v ∧ isArray v = false) ∨
      getProp data "output" = .ok (.arr [])) :
    withProp data "output" updateOutput p =
      ⟨ensureVisible { p with codeOutput := "(No output)" }, none⟩ ∧
    ((renderArtifacts data (showInProgress p)).thrown = none →
      (compileHandler engine (.parsed data) p).page.codeOutput = "(No output)" ∧
      (compileHandler engine (.parsed data) p).thrown = none) := by
  have key : ∃ v, getProp data "output" = .ok v ∧ (isArray v = false ∨ v = .arr []) := by
    rcases hout with ⟨ps, hd, hk⟩ | ⟨v, hv, ha⟩ | he
    · refine ⟨.undefined, ?_, Or.inl rfl⟩
      subst hd
      simp [getProp, lookupKey_of_missing hk]
    · exact ⟨v, hv, Or.inl ha⟩
    · exact ⟨_, he, Or.inr rfl⟩
  obtain ⟨v, hv, hshape⟩ := key
  refine ⟨?_, fun hrun => compileHandler_output engine p _ hs ht hrun hv
    (fun q => updateOutput_of_no_array q hshape)⟩
  simp [withProp, hv, updateOutput_of_no_array p hshape]

/-- A response without an output field is shown as `"(No output)"`. -/
theorem output_view_no_output_witness :
    hasKey "output" [("success", .bool true), ("ast", .str "Program"), ("tokens", .arr [])]
      = false ∧
    (withProp responseNoOutput "output" updateOutput stalePage).page.codeOutput
      = "(No output)" ∧
    (compileHandler plainEngine (.parsed responseNoOutput) stalePage).page.codeOutput
      = "(No output)" ∧
    (compileHandler plainEngine (.parsed responseNoOutput) stalePage).thrown = none :=
  have h := output_view_no_output plainEngine responseNoOutput (.bool true) stalePage
    rfl rfl (Or.inl ⟨_, rfl, by decide⟩)
  ⟨by decide, congrArg (fun r => r.page.codeOutput) h.1, h.2 rfl⟩

/-! ## Failure responses and transport failures (C4, C5, C6) -/

/-- The function `showError` writes the error message and the modal only. -/
theorem showError_views (message : JSVal) (p : Page) :
    (showError message p).page.codeOutput = p.codeOutput ∧
    (showError message p).page.tokensHtml = p.tokensHtml ∧
    (showError message p).page.astHtml = p.astHtml ∧
    (showError message p).page.astHeight = p.astHeight ∧
    (showError message p).page.irCode = p.irCode ∧
    (showError message p).page.targetCode = p.targetCode := by
  unfold showError
  cases textOf message <;> simp

/-- The function `showError` on a string shows it and throws nothing. -/
theorem showError_str (message : String) (p : Page) :
    showError (.str message) p =
      ⟨{ p with showErrorCalls := p.showErrorCalls ++ [.str message],
                errorMessage := message, errorModalShown := true }, none⟩ := by
  simp [showError, textOf, isNullish, toStr]

/-- The expression `m || fallback` on strings. -/
theorem jsOr_str (m fallback : String) :
    jsOr (.str m) (.str fallback) = .str (if m = "" then fallback else m) := by
  by_cases h : m = "" <;> simp [jsOr, truthy, h]

/-- The `catch` block shows one message and throws nothing. -/
theorem catchBlock_eq (engine : TypeErrorKind → String) (error : JSError) (p : Page) :
    catchBlock engine error p =
      ⟨{ p with
          showErrorCalls := p.showErrorCalls ++
            [.str (if error.message engine = "" then "An error occurred during compilation"
              else error.message engine)],
          errorMessage := (if error.message engine = "" then
            "An error occurred during compilation" else error.message engine),
          errorModalShown := true }, none⟩ := by
  simp [catchBlock, jsOr_str, showError_str]

/-- The handler on a response with a falsy `success`. -/
theorem compileHandler_of_failure (engine : TypeErrorKind → String) {data s : JSVal}
    (p : Page) (hs : getProp data "success" = .ok s) (hf : truthy s = false) :
    compileHandler engine (.parsed data) p =
      tryCatch engine (reportFailure data (showInProgress p)) := by
  simp [compileHandler, tryBlock, hs, hf]

/-- C4 as stated fails on the output view: the handler overwrote its text with
`"Compiling..."` before the request, and a failure response does not bring the
earlier text back. -/
theorem failure_changes_output_view :
    getProp scenarioC "success" = .ok (.bool false) ∧
    stalePage.codeOutput = "old output" ∧
    (compileHandler plainEngine (.parsed scenarioC) stalePage).page.codeOutput
      = "Compiling..." ∧
    (compileHandler plainEngine (.parsed scenarioC) stalePage).page.codeOutput
      ≠ stalePage.codeOutput :=
  ⟨rfl, rfl, rfl, by decide⟩

/-- C4, amended: for every response with success false (or any falsy value)
and every prior view state, after the handler completes the token table, the
AST region, the IR text and the target text hold exactly what they held before
the submission. -/
theorem failure_keeps_artifact_views (engine : TypeErrorKind → String) (data s : JSVal)
    (p : Page) (hs : getProp data "success" = .ok s) (hf : truthy s = false) :
    (compileHandler engine (.parsed data) p).page.tokensHtml = p.tokensHtml ∧
    (compileHandler engine (.parsed data) p).page.astHtml = p.astHtml ∧
    (compileHandler engine (.parsed data) p).page.astHeight = p.astHeight ∧
    (compileHandler engine (.parsed data) p).page.irCode = p.irCode ∧
    (compileHandler engine (.parsed data) p).page.targetCode = p.targetCode := by
  rw [compileHandler_of_failure engine p hs hf]
  have hd : ∃ e, getProp data "error" = .ok e := by
    cases data <;> simp [getProp] at hs ⊢
  obtain ⟨e, he⟩ := hd
  have hv := showError_views (jsOr e (.str "Compilation failed")) (showInProgress p)
  simp only [reportFailure, withProp, he, tryCatch]
  cases hthrown : (showError (jsOr e (.str "Compilation failed")) (showInProgress p)).thrown with
  | none => simpa [showInProgress] using hv.2
  | some err =>
    simp only [catchBlock_eq]
    simpa [showInProgress] using hv.2

/-- Scenario C leaves the token table, the AST, the IR and the target views as
they were. -/
theorem failure_keeps_artifact_views_witness :
    truthy (.bool false) = false ∧
    (compileHandler plainEngine (.parsed scenarioC) stalePage).page.tokensHtml
      = stalePage.tokensHtml ∧
    (compileHandler plainEngine (.parsed scenarioC) stalePage).page.astHtml
      = stalePage.astHtml ∧
    (compileHandler plainEngine (.parsed scenarioC) stalePage).page.astHeight
      = stalePage.astHeight ∧
    (compileHandler plainEngine (.parsed scenarioC) stalePage).page.irCode
      = stalePage.irCode ∧
    (compileHandler plainEngine (.parsed scenarioC) stalePage).page.targetCode
      = stalePage.targetCode :=
  ⟨rfl, failure_keeps_artifact_views plainEngine scenarioC (.bool false) stalePage rfl rfl⟩

/-- C5 as stated fails on the empty string: a failure response whose error is
`""` is presented with the default message, not with the provided string. -/
theorem empty_error_shows_default :
    getProp failureEmptyError "error" = .ok (.str "") ∧
    (compileHandler plainEngine (.parsed failureEmptyError) stalePage).page.showErrorCalls
      = [.str "Compilation failed"] ∧
    (compileHandler plainEngine (.parsed failureEmptyError) stalePage).page.errorMessage
      = "Compilation failed" ∧
    (compileHandler plainEngine (.parsed failureEmptyError) stalePage).page.errorMessage
      ≠ "" :=
  ⟨rfl, rfl, rfl, by decide⟩

/-- C5, amended: for every response with success false (or any falsy value),
the handler calls `showError` exactly once: with the error string of the
response when that string is not empty, and with `"Compilation failed"` when
the error field is absent or is the empty string.  The message is shown in the
modal and nothing is thrown. -/
theorem failure_shows_error_once (engine : TypeErrorKind → String) (data s : JSVal)
    (message : String) (p : Page)
    (hs : getProp data "success" = .ok s) (hf : truthy s = false)
    (hmsg : (getProp data "error" = .ok (.str message) ∧ message ≠ "") ∨
      ((∃ ps, data = .obj ps ∧ hasKey "error" ps = false) ∧
        message = "Compilation failed") ∨
      (getProp data "error" = .ok (.str "") ∧ message = "Compilation failed")) :
    (compileHandler engine (.parsed data) p).page.showErrorCalls
      = p.showErrorCalls ++ [.str message] ∧
    (compileHandler engine (.parsed data) p).page.errorMessage = message ∧
    (compileHandler engine (.parsed data) p).page.errorModalShown = true ∧
    (compileHandler engine (.parsed data) p).thrown = none := by
  rw [compileHandler_of_failure engine p hs hf]
  rcases hmsg with ⟨he, hne⟩ | ⟨⟨ps, hd, hk⟩, hm⟩ | ⟨he, hm⟩
  · simp [reportFailure, withProp, he, jsOr_str, hne, showError_str, tryCatch,
      showInProgress]
  · subst hd hm
    simp [reportFailure, withProp, getProp, lookupKey_of_missing hk, jsOr, truthy,
      showError_str, tryCatch, showInProgress]
  · subst hm
    simp [reportFailure, withProp, he, jsOr_str, showError_str, tryCatch, showInProgress]

/-- Scenario C: the error of the response is presented verbatim, once. -/
theorem failure_shows_error_once_witness :
    getProp scenarioC "error" = .ok (.str "Unexpected token at line 3") ∧
    (compileHandler plainEngine (.parsed scenarioC) stalePage).page.showErrorCalls
      = stalePage.showErrorCalls ++ [.str "Unexpected token at line 3"] ∧
    (compileHandler plainEngine (.parsed scenarioC) stalePage).page.errorMessage
      = "Unexpected token at line 3" ∧
    (compileHandler plainEngine (.parsed scenarioC) stalePage).page.errorModalShown = true ∧
    (compileHandler plainEngine (.parsed scenarioC) stalePage).thrown = none :=
  ⟨rfl, failure_shows_error_once plainEngine scenarioC (.bool false)
    "Unexpected token at line 3" stalePage rfl rfl (Or.inl ⟨rfl, by decide⟩)⟩

/-- A failure response without an error field is presented with the default
message. -/
theorem failure_without_error_field :
    (compileHandler plainEngine (.parsed failureNoError) stalePage).page.showErrorCalls
      = [.str "Compilation failed"] :=
  rfl

/-- C6 as stated fails: the message presented on a transport failure is the
message of the failure, so two different failures present two different
messages. -/
theorem transport_failure_message_varies :
    (compileHandler plainEngine (.fetchRejected (.external "Failed to fetch"))
      stalePage).page.errorMessage = "Failed to fetch" ∧
    (compileHandler plainEngine (.jsonRejected (.external "Unexpected end of JSON input"))
      stalePage).page.errorMessage = "Unexpected end of JSON input" ∧
    (compileHandler plainEngine (.fetchRejected (.external "Failed to fetch"))
      stalePage).page.errorMessage ≠
    (compileHandler plainEngine (.jsonRejected (.external "Unexpected end of JSON input"))
      stalePage).page.errorMessage :=
  ⟨rfl, rfl, by decide⟩

/-- C6, amended: for every transport failure (`fetch` rejects, or
`response.json()` rejects), the handler calls `showError` exactly once, with
the message of the failure when it is not empty and with the fixed message
`"An error occurred during compilation"` otherwise; the token table, the AST,
the IR and the target views are unchanged and nothing is thrown. -/
theorem transport_failure_shows_error_once (engine : TypeErrorKind → String)
    (t : Transport) (error : JSError) (p : Page)
    (ht : t = .fetchRejected error ∨ t = .jsonRejected error) :
    (compileHandler engine t p).page.showErrorCalls
      = p.showErrorCalls ++
        [.str (if error.message engine = "" then "An error occurred during compilation"
          else error.message engine)] ∧
    (compileHandler engine t p).page.tokensHtml = p.tokensHtml ∧
    (compileHandler engine t p).page.astHtml = p.astHtml ∧
    (compileHandler engine t p).page.astHeight = p.astHeight ∧
    (compileHandler engine t p).page.irCode = p.irCode ∧
    (compileHandler engine t p).page.targetCode = p.targetCode ∧
    (compileHandler engine t p).thrown = none := by
  rcases ht with ht | ht <;> subst ht <;>
    simp [compileHandler, tryBlock, tryCatch, catchBlock_eq, showInProgress]

/-- A rejected `fetch` with an empty message is presented with the fixed
message, and the views stay as they were. -/
theorem transport_failure_shows_error_once_witness :
    (compileHandler plainEngine (.fetchRejected (.external "")) stalePage).page.showErrorCalls
      = stalePage.showErrorCalls ++ [.str "An error occurred during compilation"] ∧
    (compileHandler plainEngine (.fetchRejected (.external "")) stalePage).page.tokensHtml
      = stalePage.tokensHtml ∧
    (compileHandler plainEngine (.fetchRejected (.external "")) stalePage).page.astHtml
      = stalePage.astHtml ∧
    (compileHandler plainEngine (.fetchRejected (.external "")) stalePage).page.astHeight
      = stalePage.astHeight ∧
    (compileHandler plainEngine (.fetchRejected (.external "")) stalePage).page.irCode
      = stalePage.irCode ∧
    (compileHandler plainEngine (.fetchRejected (.external "")) stalePage).page.targetCode
      = stalePage.targetCode ∧
    (compileHandler plainEngine (.fetchRejected (.external "")) stalePage).thrown = none :=
  transport_failure_shows_error_once plainEngine (.fetchRejected (.external ""))
    (.external "") stalePage (Or.inl rfl)

/-! ## The tokens table and the in-progress text (C7, C10) -/

/-- The handler lets no error escape. -/
theorem compileHandler_never_throws (engine : TypeErrorKind → String) (t : Transport)
    (p : Page) : (compileHandler engine t p).thrown = none := by
  unfold compileHandler tryCatch
  split
  · assumption
  · simp [catchBlock_eq]

/-- When `map` completes it yields one row per token. -/
theorem tokenRows_length {ts : List JSVal} {rows : List String}
    (h : tokenRows ts = .ok rows) : rows.length = ts.length := by
  induction ts generalizing rows with
  | nil =>
    simp [tokenRows] at h
    simp [← h]
  | cons t ts ih =>
    unfold tokenRows at h
    split at h
    · simp at h
    · split at h
      · simp at h
      · rename_i rs hrs
        simp at h
        simp [← h, ih hrs]

/-- C7, the code at the failing inputs: on a successful response without
tokens, and on one whose tokens hold `null`, the token statement throws a
TypeError, the handler presents it through `showError`, and the IR, target and
output views are not rendered: the IR and target views keep their prior text
and the output view keeps `"Compiling..."`. -/
theorem bad_tokens_fail_submission (engine : TypeErrorKind → String) (p : Page) :
    ((compileHandler engine (.parsed responseNoTokens) p).page.showErrorCalls
      = p.showErrorCalls ++
        [.str (if engine (.readOfNullish .undefined "map") = "" then
          "An error occurred during compilation"
          else engine (.readOfNullish .undefined "map"))] ∧
     (compileHandler engine (.parsed responseNoTokens) p).page.tokensHtml = p.tokensHtml ∧
     (compileHandler engine (.parsed responseNoTokens) p).page.irCode = p.irCode ∧
     (compileHandler engine (.parsed responseNoTokens) p).page.targetCode = p.targetCode ∧
     (compileHandler engine (.parsed responseNoTokens) p).page.codeOutput = "Compiling...") ∧
    ((compileHandler engine (.parsed responseNullToken) p).page.showErrorCalls
      = p.showErrorCalls ++
        [.str (if engine (.readOfNullish .null "type") = "" then
          "An error occurred during compilation"
          else engine (.readOfNullish .null "type"))] ∧
     (compileHandler engine (.parsed responseNullToken) p).page.tokensHtml = p.tokensHtml ∧
     (compileHandler engine (.parsed responseNullToken) p).page.irCode = p.irCode ∧
     (compileHandler engine (.parsed responseNullToken) p).page.targetCode = p.targetCode ∧
     (compileHandler engine (.parsed responseNullToken) p).page.codeOutput = "Compiling...") := by
  constructor <;>
    simp [compileHandler, tryBlock, tryCatch, catchBlock_eq, showInProgress,
      responseNoTokens, responseNullToken, getProp, lookupKey, truthy, renderSuccess,
      renderArtifacts, withProp, Step.andThen, displayAST, toStr, updateTokens, tokenRows,
      tokenRow, JSError.message]

/-- C10, the code at the failing inputs: after a failure response, after a
transport failure and after a successful response without tokens, the handler
has completed without an escaping error and the output view still holds the
in-progress text `"Compiling..."`. -/
theorem error_paths_leave_compiling_text (engine : TypeErrorKind → String) (p : Page) :
    ((compileHandler engine (.parsed scenarioC) p).page.codeOutput = "Compiling..." ∧
     (compileHandler engine (.parsed scenarioC) p).thrown = none) ∧
    (∀ error, (compileHandler engine (.fetchRejected error) p).page.codeOutput
        = "Compiling..." ∧
      (compileHandler engine (.fetchRejected error) p).thrown = none) ∧
    (∀ error, (compileHandler engine (.jsonRejected error) p).page.codeOutput
        = "Compiling..." ∧
      (compileHandler engine (.jsonRejected error) p).thrown = none) ∧
    ((compileHandler engine (.parsed responseNoTokens) p).page.codeOutput = "Compiling..." ∧
     (compileHandler engine (.parsed responseNoTokens) p).thrown = none) := by
  refine ⟨⟨?_, compileHandler_never_throws _ _ _⟩,
    fun error => ⟨?_, compileHandler_never_throws _ _ _⟩,
    fun error => ⟨?_, compileHandler_never_throws _ _ _⟩,
    ⟨?_, compileHandler_never_throws _ _ _⟩⟩
  · simp [compileHandler, tryBlock, tryCatch, showInProgress, scenarioC, getProp, lookupKey,
      truthy, reportFailure, withProp, jsOr, showError_str]
  · simp [compileHandler, tryBlock, tryCatch, catchBlock_eq, showInProgress]
  · simp [compileHandler, tryBlock, tryCatch, catchBlock_eq, showInProgress]
  · simp [compileHandler, tryBlock, tryCatch, catchBlock_eq, showInProgress,
      responseNoTokens, getProp, lookupKey, truthy, renderSuccess,
      renderArtifacts, withProp, Step.andThen, displayAST, toStr, updateTokens]

/-! ## The IR and target views (C8) -/

/-- A sequence that threw nothing ran both parts. -/
theorem andThen_of_not_thrown {r : Step} {f : Page → Step}
    (h : (r.andThen f).thrown = none) : r.thrown = none ∧ r.andThen f = f r.page := by
  unfold Step.andThen at h ⊢
  cases hr : r.thrown with
  | none => simp
  | some e => simp [hr] at h

/-- The function `displayAST` leaves the code views alone. -/
theorem displayAST_code (v : JSVal) (p : Page) :
    (displayAST v p).page.irCode = p.irCode ∧
    (displayAST v p).page.targetCode = p.targetCode := by
  unfold displayAST
  cases toStr v <;> simp

/-- The token statement leaves the code views alone. -/
theorem updateTokens_code (data : JSVal) (p : Page) :
    (updateTokens data p).page.irCode = p.irCode ∧
    (updateTokens data p).page.targetCode = p.targetCode := by
  unfold updateTokens
  split
  · simp
  · split <;> try split
    all_goals simp

/-- What `updateOutput` does depends on its argument alone: it throws before
writing, or it writes one text and makes the view visible. -/
theorem updateOutput_shape (v : JSVal) :
    (∃ e, ∀ p, updateOutput v p = ⟨p, some e⟩) ∨
    (∃ text, ∀ p, updateOutput v p = ⟨ensureVisible { p with codeOutput := text }, none⟩) := by
  by_cases hv : isArray v = false ∨ v = .arr []
  · exact Or.inr ⟨_, fun p => updateOutput_of_no_array p hv⟩
  · cases v with
    | arr xs =>
      have hne : xs ≠ [] := fun h => hv (Or.inr (by rw [h]))
      have hlen := length_pos_of_ne_nil hne
      by_cases h2 : (xs.filter (fun line => !isNullish line)).length > 0
      · cases hj : join "\n" (xs.filter (fun line => !isNullish line)) with
        | ok text => exact Or.inr ⟨text, fun p => by simp [updateOutput, hlen, h2, hj]⟩
        | error e => exact Or.inl ⟨e, fun p => by simp [updateOutput, hlen, h2, hj]⟩
      · exact Or.inr ⟨"(No valid output)", fun p => by simp [updateOutput, hlen, h2]⟩
    | _ => simp [isArray] at hv

/-- The function `updateOutput` leaves the code views alone. -/
theorem updateOutput_code (v : JSVal) (p : Page) :
    (updateOutput v p).page.irCode = p.irCode ∧
    (updateOutput v p).page.targetCode = p.targetCode := by
  rcases updateOutput_shape v with ⟨e, h⟩ | ⟨text, h⟩ <;> simp [h, ensureVisible]

/-- Reading a property for a statement that leaves the code views alone. -/
theorem withProp_code (data : JSVal) (key : String) (f : JSVal → Page → Step) (p : Page)
    (hf : ∀ v q, (f v q).page.irCode = q.irCode ∧ (f v q).page.targetCode = q.targetCode) :
    (withProp data key f p).page.irCode = p.irCode ∧
    (withProp data key f p).page.targetCode = p.targetCode := by
  unfold withProp
  split
  · simp
  · exact hf _ _

/-- The IR statement leaves the target view alone. -/
theorem updateIR_target (data : JSVal) (p : Page) :
    (updateIR data p).page.targetCode = p.targetCode := by
  unfold updateIR
  split
  · simp
  · split <;> try split
    all_goals simp

/-- The target statement leaves the IR view alone. -/
theorem updateTarget_ir (data : JSVal) (p : Page) :
    (updateTarget data p).page.irCode = p.irCode := by
  unfold updateTarget
  split
  · simp
  · split <;> try split
    all_goals simp

/-- The text of a non-empty array of strings, or of a string. -/
theorem codeText_lines (lines : List String) :
    codeText (.arr (lines.map .str)) = .ok (joinStrings "\n" lines) := by
  have h : itemStrings (lines.map .str) = .ok lines := by
    apply itemStrings_of_toStr
    · intro x hx
      obtain ⟨l, _, rfl⟩ := List.mem_map.mp hx
      rfl
    · induction lines with
      | nil => exact List.Forall₂.nil
      | cons l ls ih => exact List.Forall₂.cons rfl ih
  simp [codeText, join, h]

/-- The IR view after the IR statement, by the shape of the fragment. -/
theorem updateIR_shapes (data ir : JSVal) (q : Page)
    (hir : getProp data "ir_code" = .ok ir) :
    (∀ text, ir = .str text → text ≠ "" → (updateIR data q).page.irCode = text) ∧
    (∀ lines, ir = .arr (lines.map .str) →
      (updateIR data q).page.irCode = joinStrings "\n" lines) ∧
    (ir = .undefined ∨ ir = .str "" → (updateIR data q).page.irCode = q.irCode) := by
  refine ⟨?_, ?_, ?_⟩
  · intro text h hne
    subst h
    simp [updateIR, hir, truthy, hne, codeText, textOf, isNullish, toStr]
  · intro lines h
    subst h
    simp [updateIR, hir, truthy, codeText_lines]
  · intro h
    rcases h with h | h <;> subst h <;> simp [updateIR, hir, truthy]

/-- The target view after the target statement, by the shape of the
fragment. -/
theorem updateTarget_shapes (data tg : JSVal) (q : Page)
    (htg : getProp data "target_code" = .ok tg) :
    (∀ text, tg = .str text → text ≠ "" → (updateTarget data q).page.targetCode = text) ∧
    (∀ lines, tg = .arr (lines.map .str) →
      (updateTarget data q).page.targetCode = joinStrings "\n" lines) ∧
    (tg = .undefined ∨ tg = .str "" → (updateTarget data q).page.targetCode = q.targetCode) := by
  refine ⟨?_, ?_, ?_⟩
  · intro text h hne
    subst h
    simp [updateTarget, htg, truthy, hne, codeText, textOf, isNullish, toStr]
  · intro lines h
    subst h
    simp [updateTarget, htg, truthy, codeText_lines]
  · intro h
    rcases h with h | h <;> subst h <;> simp [updateTarget, htg, truthy]

/-- When the artifact statements complete, the code views they leave are the
ones the IR and target statements write on the views as they were. -/
theorem renderArtifacts_code (data : JSVal) (p : Page)
    (hrun : (renderArtifacts data p).thrown = none) :
    ∃ q1 q2 : Page, q1.irCode = p.irCode ∧ q2.targetCode = p.targetCode ∧
      (renderArtifacts data p).page.irCode = (updateIR data q1).page.irCode ∧
      (renderArtifacts data p).page.targetCode = (updateTarget data q2).page.targetCode := by
  unfold renderArtifacts at hrun ⊢
  obtain ⟨h3, e3⟩ := andThen_of_not_thrown hrun
  obtain ⟨h2, e2⟩ := andThen_of_not_thrown h3
  obtain ⟨_, e1⟩ := andThen_of_not_thrown h2
  have hA := withProp_code data "ast" displayAST p displayAST_code
  have hT := updateTokens_code data (withProp data "ast" displayAST p).page
  refine ⟨((withProp data "ast" displayAST p).andThen (updateTokens data)).page,
    (((withProp data "ast" displayAST p).andThen (updateTokens data)).andThen
      (updateIR data)).page, ?_, ?_, ?_, ?_⟩
  · rw [e1, hT.1, hA.1]
  · rw [e2, updateIR_target, e1, hT.2, hA.2]
  · rw [e3, updateTarget_ir, e2]
  · rw [e3]

/-- After the artifact statements completed, the rest of the handler leaves
the code views alone. -/
theorem compileHandler_code (engine : TypeErrorKind → String) {data s : JSVal}
    (p : Page) (hs : getProp data "success" = .ok s) (ht : truthy s = true)
    (hrun : (renderArtifacts data (showInProgress p)).thrown = none) :
    (compileHandler engine (.parsed data) p).page.irCode
      = (renderArtifacts data (showInProgress p)).page.irCode ∧
    (compileHandler engine (.parsed data) p).page.targetCode
      = (renderArtifacts data (showInProgress p)).page.targetCode := by
  rw [compileHandler_of_rendered engine p hs ht hrun]
  have hO := withProp_code data "output" updateOutput
    (renderArtifacts data (showInProgress p)).page updateOutput_code
  generalize withProp data "output" updateOutput
    (renderArtifacts data (showInProgress p)).page = r at hO ⊢
  unfold tryCatch Step.andThen
  cases hr : r.thrown with
  | none => simpa [showOutputTab] using hO
  | some e => simpa [hr, catchBlock_eq] using hO

/-- C8 as stated fails on the empty string: an IR fragment that is the string
`""` is not written, the IR view keeps its prior text. -/
theorem empty_ir_string_not_written :
    getProp responseEmptyCode "ir_code" = .ok (.str "") ∧
    stalePage.irCode = "old ir" ∧
    (compileHandler plainEngine (.parsed responseEmptyCode) stalePage).page.irCode
      = "old ir" ∧
    (compileHandler plainEngine (.parsed responseEmptyCode) stalePage).page.irCode ≠ "" ∧
    (compileHandler plainEngine (.parsed responseEmptyCode) stalePage).page.showErrorCalls
      = [] :=
  ⟨rfl, rfl, rfl, by decide, rfl⟩

/-- C8, amended: for every response with success true (or any truthy value)
whose artifact statements complete without throwing, and every prior view
state, the IR view (from `ir_code`) and the target view (from `target_code`)
each end as follows: a fragment that is a non-empty string is the text of the
view; a fragment that is an array of strings gives the entries joined with
newline; an absent fragment (it reads as `undefined`) and the empty string
leave the text the view had before the submission. -/
theorem code_views_by_shape (engine : TypeErrorKind → String) (data s ir tg : JSVal)
    (p : Page)
    (hs : getProp data "success" = .ok s) (ht : truthy s = true)
    (hir : getProp data "ir_code" = .ok ir)
    (htg : getProp data "target_code" = .ok tg)
    (hrun : (renderArtifacts data (showInProgress p)).thrown = none) :
    ((∀ text, ir = .str text → text ≠ "" →
        (compileHandler engine (.parsed data) p).page.irCode = text) ∧
     (∀ lines, ir = .arr (lines.map .str) →
        (compileHandler engine (.parsed data) p).page.irCode = joinStrings "\n" lines) ∧
     (ir = .undefined ∨ ir = .str "" →
        (compileHandler engine (.parsed data) p).page.irCode = p.irCode)) ∧
    ((∀ text, tg = .str text → text ≠ "" →
        (compileHandler engine (.parsed data) p).page.targetCode = text) ∧
     (∀ lines, tg = .arr (lines.map .str) →
        (compileHandler engine (.parsed data) p).page.targetCode = joinStrings "\n" lines) ∧
     (tg = .undefined ∨ tg = .str "" →
        (compileHandler engine (.parsed data) p).page.targetCode = p.targetCode)) := by
  obtain ⟨hI, hT⟩ := compileHandler_code engine p hs ht hrun
  obtain ⟨q1, q2, h1, h2, e1, e2⟩ := renderArtifacts_code data (showInProgress p) hrun
  have h1p : q1.irCode = p.irCode := by simpa [showInProgress] using h1
  have h2p : q2.targetCode = p.targetCode := by simpa [showInProgress] using h2
  rw [hI, hT, e1, e2, ← h1p, ← h2p]
  exact ⟨updateIR_shapes data ir q1 hir, updateTarget_shapes data tg q2 htg⟩

/-- Scenario A: the IR array `["LOAD x"]` and the target string `"MOV x"` are
the texts of their views. -/
theorem code_views_by_shape_witness :
    getProp scenarioA "ir_code" = .ok (.arr (["LOAD x"].map .str)) ∧
    getProp scenarioA "target_code" = .ok (.str "MOV x") ∧
    (compileHandler plainEngine (.parsed scenarioA) stalePage).page.irCode = "LOAD x" ∧
    (compileHandler plainEngine (.parsed scenarioA) stalePage).page.targetCode = "MOV x" :=
  ⟨rfl, rfl,
    (code_views_by_shape plainEngine scenarioA (.bool true) (.arr (["LOAD x"].map .str))
      (.str "MOV x") stalePage rfl rfl rfl rfl rfl).1.2.1 ["LOAD x"] rfl,
    (code_views_by_shape plainEngine scenarioA (.bool true) (.arr (["LOAD x"].map .str))
      (.str "MOV x") stalePage rfl rfl rfl rfl rfl).2.1 "MOV x" rfl (by decide)⟩

/-! ## Idempotence of the success-path rendering (C9) -/

theorem getD_laterWrite {α : Type} (first second : Option α) (x : α) :
    (laterWrite first second).getD x = second.getD (first.getD x) := by
  cases second <;> rfl

theorem getD_getD_same {α : Type} (o : Option α) (x : α) :
    o.getD (o.getD x) = o.getD x := by
  cases o <;> rfl

theorem Patch.apply_merge (w1 w2 : Patch) (p : Page) :
    w2.apply (w1.apply p) = (w1.merge w2).apply p := by
  simp [Patch.apply, Patch.merge, getD_laterWrite]

theorem Patch.apply_apply (w : Patch) (p : Page) : w.apply (w.apply p) = w.apply p := by
  simp [Patch.apply, getD_getD_same]

theorem Patch.apply_none (p : Page) : ({} : Patch).apply p = p := rfl

/-- Running a pure-write statement on the page it left changes nothing. -/
theorem PureWrite.twice {f : Page → Step} (hf : PureWrite f) (p : Page) :
    f (f p).page = f p := by
  obtain ⟨w, e, h⟩ := hf
  rw [h p, h (w.apply p), Patch.apply_apply]

theorem PureWrite.andThen {f g : Page → Step} (hf : PureWrite f) (hg : PureWrite g) :
    PureWrite (fun p => (f p).andThen g) := by
  obtain ⟨w1, e1, h1⟩ := hf
  obtain ⟨w2, e2, h2⟩ := hg
  cases e1 with
  | none =>
    exact ⟨w1.merge w2, e2, fun p => by simp [Step.andThen, h1, h2, Patch.apply_merge]⟩
  | some e =>
    exact ⟨w1, some e, fun p => by simp [Step.andThen, h1]⟩

theorem PureWrite.of_throw (e : JSError) : PureWrite (fun p => ⟨p, some e⟩) :=
  ⟨{}, some e, fun _ => rfl⟩

theorem PureWrite.of_skip : PureWrite (fun p => ⟨p, none⟩) :=
  ⟨{}, none, fun _ => rfl⟩

theorem displayAST_pureWrite (v : JSVal) : PureWrite (displayAST v) := by
  cases h : toStr v with
  | ok text =>
    exact ⟨{ astHeight := some "auto",
             astHtml := some ("<pre class=\"ast-tree\">" ++ text ++ "</pre>") }, none,
      fun p => by simp [displayAST, h, Patch.apply]⟩
  | error e =>
    exact ⟨{ astHeight := some "auto" }, some e,
      fun p => by simp [displayAST, h, Patch.apply]⟩

theorem withProp_pureWrite (data : JSVal) (key : String) (f : JSVal → Page → Step)
    (hf : ∀ v, PureWrite (f v)) : PureWrite (withProp data key f) := by
  cases h : getProp data key with
  | error e =>
    have : withProp data key f = fun p => ⟨p, some e⟩ := by
      funext p
      simp [withProp, h]
    rw [this]
    exact PureWrite.of_throw e
  | ok v =>
    have : withProp data key f = f v := by
      funext p
      simp [withProp, h]
    rw [this]
    exact hf v

theorem updateTokens_pureWrite (data : JSVal) : PureWrite (updateTokens data) := by
  have hthrow : ∀ e, updateTokens data = (fun p => ⟨p, some e⟩) → PureWrite (updateTokens data) :=
    fun e h => h ▸ PureWrite.of_throw e
  cases h : getProp data "tokens" with
  | error e => exact hthrow e (by funext p; simp [updateTokens, h])
  | ok tokens =>
    cases tokens with
    | arr ts =>
      cases hr : tokenRows ts with
      | error e => exact hthrow e (by funext p; simp [updateTokens, h, hr])
      | ok rows =>
        exact ⟨{ tokensHtml := some (joinStrings "" rows) }, none,
          fun p => by simp [updateTokens, h, hr, Patch.apply]⟩
    | undefined =>
      exact hthrow (.typeError (.readOfNullish .undefined "map"))
        (by funext p; simp [updateTokens, h])
    | null =>
      exact hthrow (.typeError (.readOfNullish .null "map"))
        (by funext p; simp [updateTokens, h])
    | bool b =>
      exact hthrow (.typeError (.notCallable (.bool b) "map"))
        (by funext p; simp [updateTokens, h])
    | num r =>
      exact hthrow (.typeError (.notCallable (.num r) "map"))
        (by funext p; simp [updateTokens, h])
    | str t =>
      exact hthrow (.typeError (.notCallable (.str t) "map"))
        (by funext p; simp [updateTokens, h])
    | obj ps =>
      exact hthrow (.typeError (.notCallable (.obj ps) "map"))
        (by funext p; simp [updateTokens, h])

theorem updateIR_pureWrite (data : JSVal) : PureWrite (updateIR data) := by
  cases h : getProp data "ir_code" with
  | error e => exact ⟨{}, some e, fun p => by simp [updateIR, h, Patch.apply_none]⟩
  | ok v =>
    by_cases ht : truthy v = true
    · cases hc : codeText v with
      | error e => exact ⟨{}, some e, fun p => by simp [updateIR, h, ht, hc, Patch.apply_none]⟩
      | ok text =>
        exact ⟨{ irCode := some text }, none,
          fun p => by simp [updateIR, h, ht, hc, Patch.apply]⟩
    · exact ⟨{}, none, fun p => by simp [updateIR, h, ht, Patch.apply_none]⟩

theorem updateTarget_pureWrite (data : JSVal) : PureWrite (updateTarget data) := by
  cases h : getProp data "target_code" with
  | error e => exact ⟨{}, some e, fun p => by simp [updateTarget, h, Patch.apply_none]⟩
  | ok v =>
    by_cases ht : truthy v = true
    · cases hc : codeText v with
      | error e =>
        exact ⟨{}, some e, fun p => by simp [updateTarget, h, ht, hc, Patch.apply_none]⟩
      | ok text =>
        exact ⟨{ targetCode := some text }, none,
          fun p => by simp [updateTarget, h, ht, hc, Patch.apply]⟩
    · exact ⟨{}, none, fun p => by simp [updateTarget, h, ht, Patch.apply_none]⟩

theorem updateOutput_pureWrite (v : JSVal) : PureWrite (updateOutput v) := by
  rcases updateOutput_shape v with ⟨e, h⟩ | ⟨text, h⟩
  · exact ⟨{}, some e, fun p => by simp [h, Patch.apply_none]⟩
  · exact ⟨{ codeOutput := some text, codeOutputDisplay := some "block",
             codeOutputInView := some true }, none,
      fun p => by simp [h, ensureVisible, Patch.apply]⟩

theorem showOutputTab_pureWrite : PureWrite showOutputTab :=
  ⟨{ activeTab := some "#outputTab" }, none, fun p => by simp [showOutputTab, Patch.apply]⟩

theorem renderSuccess_pureWrite (data : JSVal) : PureWrite (renderSuccess data) := by
  have hA := withProp_pureWrite data "ast" displayAST displayAST_pureWrite
  have hO := withProp_pureWrite data "output" updateOutput updateOutput_pureWrite
  exact ((((hA.andThen (updateTokens_pureWrite data)).andThen
    (updateIR_pureWrite data)).andThen (updateTarget_pureWrite data)).andThen hO).andThen
    showOutputTab_pureWrite

/-- A pure-write statement throws on every page or on none. -/
theorem PureWrite.thrown_same {f : Page → Step} (hf : PureWrite f) (p q : Page) :
    (f q).thrown = (f p).thrown := by
  obtain ⟨w, e, h⟩ := hf
  rw [h p, h q]

/-- When the AST statement completes, it wrote the markup of the AST string. -/
theorem displayAST_of_not_thrown (data : JSVal) (p : Page)
    (h : (withProp data "ast" displayAST p).thrown = none) :
    ∃ ast text, getProp data "ast" = .ok ast ∧ toStr ast = .ok text ∧
      withProp data "ast" displayAST p =
        ⟨{ p with astHeight := "auto",
                  astHtml := "<pre class=\"ast-tree\">" ++ text ++ "</pre>" }, none⟩ := by
  unfold withProp at h ⊢
  cases hg : getProp data "ast" with
  | error e => simp [hg] at h
  | ok ast =>
    cases ht : toStr ast with
    | error e => simp [hg, displayAST, ht] at h
    | ok text => exact ⟨ast, text, rfl, ht, by simp [displayAST, ht]⟩

/-- When the token statement completes, it wrote the rows of the tokens. -/
theorem updateTokens_of_not_thrown (data : JSVal) (q : Page)
    (h : (updateTokens data q).thrown = none) :
    ∃ ts rows, getProp data "tokens" = .ok (.arr ts) ∧ tokenRows ts = .ok rows ∧
      updateTokens data q = ⟨{ q with tokensHtml := joinStrings "" rows }, none⟩ := by
  unfold updateTokens at h ⊢
  cases hg : getProp data "tokens" with
  | error e => simp [hg] at h
  | ok tokens =>
    cases tokens with
    | arr ts =>
      cases hr : tokenRows ts with
      | error e => simp [hg, hr] at h
      | ok rows => exact ⟨ts, rows, rfl, hr, by simp [hr]⟩
    | undefined => simp [hg] at h
    | null => simp [hg] at h
    | bool b => simp [hg] at h
    | num r => simp [hg] at h
    | str t => simp [hg] at h
    | obj ps => simp [hg] at h

/-- When the output statement completes, `updateOutput` writes one text,
whatever the page. -/
theorem withProp_output_of_not_thrown (data : JSVal) (q : Page)
    (h : (withProp data "output" updateOutput q).thrown = none) :
    ∃ out text, getProp data "output" = .ok out ∧
      ∀ r, updateOutput out r = ⟨ensureVisible { r with codeOutput := text }, none⟩ := by
  unfold withProp at h
  cases hg : getProp data "output" with
  | error e => simp [hg] at h
  | ok out =>
    rcases updateOutput_shape out with ⟨e, he⟩ | ⟨text, ht⟩
    · simp [hg, he] at h
    · exact ⟨out, text, rfl, ht⟩

/-- The text `updateOutput` writes does not depend on the page. -/
theorem updateOutput_same_text (output : JSVal) (p q : Page)
    (h : (updateOutput output p).thrown = none) :
    updateOutput output q =
      ⟨ensureVisible { q with codeOutput := (updateOutput output p).page.codeOutput },
        none⟩ := by
  rcases updateOutput_shape output with ⟨e, he⟩ | ⟨text, ht⟩
  · simp [he] at h
  · simp [ht, ensureVisible]

/-- The IR statement leaves the AST, the tokens and the output alone. -/
theorem updateIR_views (data : JSVal) (p : Page) :
    (updateIR data p).page.astHtml = p.astHtml ∧
    (updateIR data p).page.tokensHtml = p.tokensHtml ∧
    (updateIR data p).page.codeOutput = p.codeOutput := by
  unfold updateIR
  split
  · simp
  · split <;> try split
    all_goals simp

/-- The target statement leaves the AST, the tokens and the output alone. -/
theorem updateTarget_views (data : JSVal) (p : Page) :
    (updateTarget data p).page.astHtml = p.astHtml ∧
    (updateTarget data p).page.tokensHtml = p.tokensHtml ∧
    (updateTarget data p).page.codeOutput = p.codeOutput := by
  unfold updateTarget
  split
  · simp
  · split <;> try split
    all_goals simp

/-- When the success-path rendering completes, the AST view holds the markup
of the AST string, the tokens table the rows of the tokens and the output view
the text of `updateOutput`. -/
theorem renderSuccess_views (data : JSVal) (p : Page)
    (h : (renderSuccess data p).thrown = none) :
    ∃ ast text ts rows out outText,
      getProp data "ast" = .ok ast ∧ toStr ast = .ok text ∧
      getProp data "tokens" = .ok (.arr ts) ∧ tokenRows ts = .ok rows ∧
      getProp data "output" = .ok out ∧
      (∀ r, updateOutput out r = ⟨ensureVisible { r with codeOutput := outText }, none⟩) ∧
      (renderSuccess data p).page.astHtml = "<pre class=\"ast-tree\">" ++ text ++ "</pre>" ∧
      (renderSuccess data p).page.tokensHtml = joinStrings "" rows ∧
      (renderSuccess data p).page.codeOutput = outText := by
  unfold renderSuccess renderArtifacts at h ⊢
  obtain ⟨h5, e5⟩ := andThen_of_not_thrown h
  obtain ⟨h4, e4⟩ := andThen_of_not_thrown h5
  obtain ⟨h3, e3⟩ := andThen_of_not_thrown h4
  obtain ⟨h2, e2⟩ := andThen_of_not_thrown h3
  obtain ⟨h1, e1⟩ := andThen_of_not_thrown h2
  obtain ⟨ast, text, ha, hta, eA⟩ := displayAST_of_not_thrown data p h1
  rw [e1] at h2
  obtain ⟨ts, rows, htk, hrows, eT⟩ := updateTokens_of_not_thrown data _ h2
  rw [e4] at h5
  obtain ⟨out, outText, ho, hO⟩ := withProp_output_of_not_thrown data _ h5
  have eO : ∀ r, withProp data "output" updateOutput r =
      ⟨ensureVisible { r with codeOutput := outText }, none⟩ := by
    intro r
    simp [withProp, ho, hO]
  refine ⟨ast, text, ts, rows, out, outText, ha, hta, htk, hrows, ho, hO, ?_, ?_, ?_⟩
  · rw [e5, e4, eO]
    simp only [showOutputTab, ensureVisible]
    rw [e3, (updateTarget_views data _).1, e2, (updateIR_views data _).1, e1, eT, eA]
  · rw [e5, e4, eO]
    simp only [showOutputTab, ensureVisible]
    rw [e3, (updateTarget_views data _).2.1, e2, (updateIR_views data _).2.1, e1, eT]
  · rw [e5, e4, eO]
    simp only [showOutputTab, ensureVisible]

/-- C9: for every response and every prior view state, running the
success-path rendering (`displayAST`, token table, IR, target, `updateOutput`,
tab switch) a second time with the same response leaves the page, every
artifact view included, exactly as the first run left it, and ends the same
way; and `displayAST`, the token table statement and `updateOutput` replace
prior content rather than append to it: run again on their own result they
change nothing, `displayAST` sets the AST region to the markup of the AST
string alone, the token statement sets the table body to the rows of the
tokens alone, `updateOutput` writes the same text whatever the page held, and
a rendering that completes leaves AST, token and output views that do not
depend on what the views held before. -/
theorem rendering_twice_same (data : JSVal) (p : Page) :
    renderSuccess data (renderSuccess data p).page = renderSuccess data p ∧
    (∀ ast, displayAST ast (displayAST ast p).page = displayAST ast p) ∧
    updateTokens data (updateTokens data p).page = updateTokens data p ∧
    (∀ output, updateOutput output (updateOutput output p).page = updateOutput output p) ∧
    (∀ ast text, toStr ast = .ok text →
      displayAST ast p =
        ⟨{ p with astHeight := "auto",
                  astHtml := "<pre class=\"ast-tree\">" ++ text ++ "</pre>" }, none⟩) ∧
    (∀ ts rows, getProp data "tokens" = .ok (.arr ts) → tokenRows ts = .ok rows →
      updateTokens data p = ⟨{ p with tokensHtml := joinStrings "" rows }, none⟩) ∧
    (∀ output q, (updateOutput output p).thrown = none →
      updateOutput output q =
        ⟨ensureVisible { q with codeOutput := (updateOutput output p).page.codeOutput },
          none⟩) ∧
    (∀ q, (renderSuccess data p).thrown = none →
      (renderSuccess data q).thrown = none ∧
      (renderSuccess data q).page.astHtml = (renderSuccess data p).page.astHtml ∧
      (renderSuccess data q).page.tokensHtml = (renderSuccess data p).page.tokensHtml ∧
      (renderSuccess data q).page.codeOutput = (renderSuccess data p).page.codeOutput) := by
  refine ⟨(renderSuccess_pureWrite data).twice p,
    fun ast => (displayAST_pureWrite ast).twice p,
    (updateTokens_pureWrite data).twice p,
    fun output => (updateOutput_pureWrite output).twice p, ?_, ?_, ?_, ?_⟩
  · intro ast text ht
    simp [displayAST, ht]
  · intro ts rows htk hrows
    simp [updateTokens, htk, hrows]
  · intro output q h
    exact updateOutput_same_text output p q h
  · intro q h
    have hq : (renderSuccess data q).thrown = none := by
      rw [(renderSuccess_pureWrite data).thrown_same p q]
      exact h
    obtain ⟨ast, text, ts, rows, out, outText, ha, hta, htk, hrows, ho, hO, v1, v2, v3⟩ :=
      renderSuccess_views data p h
    obtain ⟨ast2, text2, ts2, rows2, out2, outText2, ha2, hta2, htk2, hrows2, ho2, hO2,
      w1, w2, w3⟩ := renderSuccess_views data q hq
    have e1 : ast2 = ast := by
      have := ha2.symm.trans ha
      simpa using this
    subst e1
    have e2 : text2 = text := by
      have := hta2.symm.trans hta
      simpa using this
    have e3 : ts2 = ts := by
      have := htk2.symm.trans htk
      simpa using this
    subst e3
    have e4 : rows2 = rows := by
      have := hrows2.symm.trans hrows
      simpa using this
    have e5 : out2 = out := by
      have := ho2.symm.trans ho
      simpa using this
    subst e5
    have e6 : outText2 = outText := by
      have := (hO2 p).symm.trans (hO p)
      simpa [ensureVisible] using congrArg (fun r => r.page.codeOutput) this
    refine ⟨hq, ?_, ?_, ?_⟩
    · rw [w1, v1, e2]
    · rw [w2, v2, e4]
    · rw [w3, v3, e6]

/-- Scenario A rendered on a page with earlier results: the AST region, the
token table and the output view hold the new content alone, and a second run
changes nothing. -/
theorem rendering_twice_same_witness :
    renderSuccess scenarioA (renderSuccess scenarioA stalePage).page
      = renderSuccess scenarioA stalePage ∧
    (displayAST (.str "Program") stalePage).page.astHtml
      = "<pre class=\"ast-tree\">Program</pre>" ∧
    (updateTokens scenarioA stalePage).page.tokensHtml = rowHtml "KEYWORD" "int" ∧
    (updateOutput (.arr [.str "5", .str "15"]) stalePage).page.codeOutput = "5\n15" ∧
    (renderSuccess scenarioA stalePage).page.astHtml
      = "<pre class=\"ast-tree\">Program</pre>" ∧
    (renderSuccess scenarioA stalePage).page.tokensHtml = rowHtml "KEYWORD" "int" ∧
    (renderSuccess scenarioA stalePage).page.codeOutput = "5\n15" :=
  have h := rendering_twice_same scenarioA stalePage
  ⟨h.1,
    congrArg (fun r => r.page.astHtml) (h.2.2.2.2.1 (.str "Program") "Program" rfl),
    congrArg (fun r => r.page.tokensHtml)
      (h.2.2.2.2.2.1 [.obj [("type", .str "KEYWORD"), ("value", .str "int")]]
        [rowHtml "KEYWORD" "int"] rfl rfl),
    congrArg (fun r => r.page.codeOutput)
      (h.2.2.2.2.2.2.1 (.arr [.str "5", .str "15"]) stalePage rfl),
    rfl, rfl, rfl⟩

end Compilite
